import Mathlib

/- Verification of the eduAI backend. This file is a shallow embedding of
the Canvas data flattener, the vector-search setup and the chat endpoints of
src/backend/main.py, together with the course filter of src/backend/Scraper.py.
Python strings are modeled as Lean strings, JSON values as the inductive type
JVal, and numbers as integers (no claim depends on float rendering). The
external date libraries (dateutil parsing, pytz) are modeled on the ISO-8601
inputs the fetcher produces, with the post-2007 United States daylight-saving
rule for the America/New_York zone. The embedding model is an abstract encoder
producing integer vectors of a fixed dimension. -/

/- JSON values as produced by json.load. -/
inductive JVal where
  | null
  | bool (b : Bool)
  | num (n : Int)
  | str (s : String)
  | arr (xs : List JVal)
  | obj (fields : List (String × JVal))

/- Python dict lookup: d[k] for the first matching key, none when absent. -/
def dictFind : List (String × JVal) → String → Option JVal
  | [], _ => none
  | (k, v) :: rest, key => if k = key then some v else dictFind rest key

/- Python dict.get(key, default). A key that is present but bound to null
still returns null, not the default. -/
def dictGet (fs : List (String × JVal)) (key : String) (dflt : JVal) : JVal :=
  (dictFind fs key).getD dflt

/- Python truthiness of a JSON value. -/
def truthy : JVal → Bool
  | .null => false
  | .bool b => b
  | .num n => n != 0
  | .str s => s != ""
  | .arr xs => !xs.isEmpty
  | .obj fs => !fs.isEmpty

/- Python equality test of a value against a string literal. -/
def jStrEq (v : JVal) (s : String) : Bool :=
  match v with
  | .str t => t == s
  | _ => false

/- The single-quote character used by the Python repr of containers. -/
def quoteC : Char := Char.ofNat 39

mutual
/- Python repr of a JSON value, used when a container is interpolated into an
f-string. String escaping inside reprs is not modeled; no claim exercises it. -/
def pyRepr : JVal → String
  | .null => "None"
  | .bool b => if b then "True" else "False"
  | .num n => toString n
  | .str s => String.mk (quoteC :: (s.data ++ [quoteC]))
  | .arr xs => "[" ++ pyReprList xs ++ "]"
  | .obj fs => "\x7b" ++ pyReprObj fs ++ "\x7d"
def pyReprList : List JVal → String
  | [] => ""
  | [x] => pyRepr x
  | x :: xs => pyRepr x ++ ", " ++ pyReprList xs
def pyReprObj : List (String × JVal) → String
  | [] => ""
  | [(k, v)] => String.mk (quoteC :: (k.data ++ [quoteC])) ++ ": " ++ pyRepr v
  | (k, v) :: xs =>
      String.mk (quoteC :: (k.data ++ [quoteC])) ++ ": " ++ pyRepr v ++ ", " ++ pyReprObj xs
end

/- Python str() of a JSON value, the conversion applied by f-string fields. -/
def pyStr : JVal → String
  | .str s => s
  | v => pyRepr v

/- Python iteration over a JSON value: lists yield elements, strings yield
one-character strings, dicts yield their keys; other values raise TypeError,
modeled as none. -/
def pyIter : JVal → Option (List JVal)
  | .arr xs => some xs
  | .str s => some (s.data.map (fun c => .str (String.mk [c])))
  | .obj fs => some (fs.map (fun p => .str p.1))
  | _ => none

/- Python len() of a JSON value; none models TypeError. -/
def pyJLen : JVal → Option Nat
  | .arr xs => some xs.length
  | .str s => some s.data.length
  | .obj fs => some fs.length
  | _ => none

/- Date and time model, restricted to the ISO-8601 shapes the fetcher stores. -/

/- A parsed datetime value; off is the UTC offset in minutes, none when the
parsed value carries no timezone information (a naive datetime). -/
structure PyDateTime where
  year : Nat
  month : Nat
  day : Nat
  hour : Nat
  minute : Nat
  second : Nat
  off : Option Int
deriving DecidableEq

def leapYear (y : Nat) : Bool :=
  (y % 4 == 0 && y % 100 != 0) || y % 400 == 0

def daysInMonth (y m : Nat) : Nat :=
  if m = 2 then (if leapYear y then 29 else 28)
  else if m = 4 ∨ m = 6 ∨ m = 9 ∨ m = 11 then 30
  else 31

/- Read exactly n decimal digits, returning the value and the rest. -/
def readDigits : Nat → Nat → List Char → Option (Nat × List Char)
  | 0, acc, cs => some (acc, cs)
  | n + 1, acc, c :: cs =>
      if c.isDigit then readDigits n (acc * 10 + (c.toNat - 48)) cs else none
  | _ + 1, _, [] => none

/- Parse the timezone suffix of an ISO timestamp: empty (naive), Z, or a
signed HH:MM offset. -/
def parseOffPart : List Char → Option (Option Int)
  | [] => some none
  | ['Z'] => some (some 0)
  | c :: cs =>
    if c = '+' ∨ c = '-' then
      match readDigits 2 0 cs with
      | some (hh, ':' :: cs2) =>
        match readDigits 2 0 cs2 with
        | some (mm, []) =>
          if mm ≤ 59 then
            some (some (if c = '-' then -(((hh * 60 + mm : Nat)) : Int)
                        else ((hh * 60 + mm : Nat) : Int)))
          else none
        | _ => none
      | _ => none
    else none

/- Skip an optional fractional-seconds field. -/
def skipFrac : List Char → Option (List Char)
  | '.' :: cs =>
      if (cs.takeWhile Char.isDigit).isEmpty then none
      else some (cs.dropWhile Char.isDigit)
  | cs => some cs

/- Parse the HH:MM[:SS[.ffff]][offset] part of an ISO timestamp. -/
def parseHMS (cs : List Char) : Option (Nat × Nat × Nat × Option Int) :=
  match readDigits 2 0 cs with
  | some (hh, ':' :: cs1) =>
    match readDigits 2 0 cs1 with
    | some (mi, rest) =>
      match rest with
      | ':' :: cs2 =>
        match readDigits 2 0 cs2 with
        | some (ss, rest2) =>
          match skipFrac rest2 with
          | some rest3 =>
            match parseOffPart rest3 with
            | some off =>
                if hh ≤ 23 ∧ mi ≤ 59 ∧ ss ≤ 59 then some (hh, mi, ss, off) else none
            | none => none
          | none => none
        | none => none
      | _ =>
        match parseOffPart rest with
        | some off => if hh ≤ 23 ∧ mi ≤ 59 then some (hh, mi, 0, off) else none
        | none => none
    | none => none
  | _ => none

/- Model of ISO-8601 datetime parsing as done by dateutil and by
datetime.fromisoformat on the strings this repository feeds them:
YYYY-MM-DD, optionally followed by T or a space and a time with an optional
zone suffix. Inputs outside this grammar are modeled as parse failures. -/
def parseISO (s : String) : Option PyDateTime :=
  match readDigits 4 0 s.data with
  | some (y, '-' :: cs1) =>
    match readDigits 2 0 cs1 with
    | some (mo, '-' :: cs2) =>
      match readDigits 2 0 cs2 with
      | some (d, rest) =>
        if 1 ≤ mo ∧ mo ≤ 12 ∧ 1 ≤ d ∧ d ≤ daysInMonth y mo then
          match rest with
          | [] => some ⟨y, mo, d, 0, 0, 0, none⟩
          | c :: cs3 =>
            if c = 'T' ∨ c = ' ' then
              match parseHMS cs3 with
              | some (hh, mi, ss, off) => some ⟨y, mo, d, hh, mi, ss, off⟩
              | none => none
            else none
        else none
      | _ => none
    | _ => none
  | _ => none

/- Days from the civil epoch 1970-01-01 (the standard civil-calendar
conversion); all uses in this file have nonnegative intermediate values. -/
def daysFromCivil (y m d : Int) : Int :=
  let y2 := if 2 < m then y else y - 1
  let era := (if 0 ≤ y2 then y2 else y2 - 399) / 400
  let yoe := y2 - 400 * era
  let mp := (m + 9) % 12
  let doy := (153 * mp + 2) / 5 + d - 1
  let doe := 365 * yoe + yoe / 4 - yoe / 100 + doy
  146097 * era + doe - 719468

/- Inverse of daysFromCivil: year, month, day of a day count. -/
def civilFromDays (z0 : Int) : Int × Int × Int :=
  let z := z0 + 719468
  let era := (if 0 ≤ z then z else z - 146096) / 146097
  let doe := z - 146097 * era
  let yoe := (doe - doe / 1460 + doe / 36524 - doe / 146096) / 365
  let y := yoe + 400 * era
  let doy := doe - (365 * yoe + yoe / 4 - yoe / 100)
  let mp := (5 * doy + 2) / 153
  let d := doy - (153 * mp + 2) / 5 + 1
  let m := if mp < 10 then mp + 3 else mp - 9
  (if m ≤ 2 then y + 1 else y, m, d)

/- Seconds since the epoch of a parsed datetime interpreted at a given UTC
offset in minutes. -/
def dtToEpochSec (dt : PyDateTime) (offMin : Int) : Int :=
  daysFromCivil (dt.year : Int) (dt.month : Int) (dt.day : Int) * 86400
    + (dt.hour : Int) * 3600 + (dt.minute : Int) * 60 + (dt.second : Int)
    - offMin * 60

/- The first Sunday on or after a given civil day count; day 0 (1970-01-01)
was a Thursday, so weekday (z + 4) mod 7 is 0 on Sundays. -/
def firstSundayOnOrAfter (z : Int) : Int := z + (7 - (z + 4) % 7) % 7

/- United States daylight-saving window for a year (post-2007 rule): from the
second Sunday of March 07:00 UTC to the first Sunday of November 06:00 UTC. -/
def dstStartSec (y : Int) : Int :=
  (firstSundayOnOrAfter (daysFromCivil y 3 1) + 7) * 86400 + 7 * 3600

def dstEndSec (y : Int) : Int :=
  firstSundayOnOrAfter (daysFromCivil y 11 1) * 86400 + 6 * 3600

def inEasternDst (t : Int) : Bool :=
  let y := (civilFromDays (t / 86400)).1
  decide (dstStartSec y ≤ t) && decide (t < dstEndSec y)

/- America/New_York UTC offset in minutes at a UTC instant. -/
def easternOffsetMin (t : Int) : Int := if inEasternDst t then -240 else -300

def pad2 (n : Nat) : String := if n < 10 then "0" ++ toString n else toString n

def pad4 (n : Nat) : String :=
  if n < 10 then "000" ++ toString n
  else if n < 100 then "00" ++ toString n
  else if n < 1000 then "0" ++ toString n
  else toString n

/- strftime of an epoch instant converted to America/New_York with the format
of main.py line 61: %Y-%m-%d %I:%M %p %Z. -/
def formatEastern (t : Int) : String :=
  let lt := t + easternOffsetMin t * 60
  let days := lt / 86400
  let sod := (lt % 86400).toNat
  let c := civilFromDays days
  let hour := sod / 3600
  let minute := sod % 3600 / 60
  let h12a := hour % 12
  let h12 := if h12a = 0 then 12 else h12a
  let ampm := if hour < 12 then "AM" else "PM"
  let tzn := if inEasternDst t then "EDT" else "EST"
  pad4 c.1.toNat ++ "-" ++ pad2 c.2.1.toNat ++ "-" ++ pad2 c.2.2.toNat ++ " "
    ++ pad2 h12 ++ ":" ++ pad2 minute ++ " " ++ ampm ++ " " ++ tzn

/- Document Flattener: load_and_process_data of src/backend/main.py. -/

/- Metadata record appended in parallel with each document. -/
structure MetaRec where
  type : String
  course : JVal
  title : Option JVal

/- main.py lines 51-65 and 96-110: the due-date normalization block. A value
that is falsy or equal to the placeholder is passed through; a string is
parsed, localized to UTC when naive, converted to America/New_York and
formatted; any parse failure (including a non-string value, where the parse
call raises) is caught and falls back to the raw value. -/
def tryParseRender : JVal → JVal
  | .str s =>
    match parseISO s with
    | some dt => .str (formatEastern (dtToEpochSec dt (dt.off.getD 0)))
    | none => .str s
  | v => v

def normDue (due_str : JVal) : JVal :=
  if truthy due_str && !jStrEq due_str "No due date" then tryParseRender due_str
  else due_str

/- main.py lines 68-72 and 113-117: the submission scores lookup. The key
requested is "scores"; a non-dict submission yields the placeholder. -/
def subScoresOf (submission : JVal) : JVal :=
  match submission with
  | .obj fs => dictGet fs "scores" (.str "No submission")
  | _ => .str "No submission"

/- The assignment document template of main.py lines 79-85. -/
def assignDoc (courseName aName due aDesc subScores : String) : String :=
  "**Assignment in " ++ courseName ++ ":**\n"
    ++ "- **Name:** " ++ aName ++ "\n"
    ++ "- **Due Date:** " ++ due ++ "\n"
    ++ "- **Description:** " ++ aDesc ++ "\n"
    ++ "- **Submission Scores:** " ++ subScores ++ "\n"

/- The quiz document template of main.py lines 124-130. -/
def quizDoc (courseName qTitle due qDesc subScores : String) : String :=
  "**Quiz in " ++ courseName ++ ":**\n"
    ++ "- **Title:** " ++ qTitle ++ "\n"
    ++ "- **Due Date:** " ++ due ++ "\n"
    ++ "- **Description:** " ++ qDesc ++ "\n"
    ++ "- **Submission Scores:** " ++ subScores ++ "\n"

/- main.py lines 45-87: one document and one metadata record per assignment. -/
def flattenAssignment (courseName : JVal) (a : JVal) : String × MetaRec :=
  match a with
  | .obj fs =>
    let aName := dictGet fs "name" (.str "Unnamed Assignment")
    let dueStr := dictGet fs "due_at" (.str "No due date")
    let due := normDue dueStr
    let aDesc := dictGet fs "description" (.str "No description")
    let submission := dictGet fs "submission" (.obj [])
    let subScores := subScoresOf submission
    (assignDoc (pyStr courseName) (pyStr aName) (pyStr due) (pyStr aDesc) (pyStr subScores),
     ⟨"assignment", courseName, some aName⟩)
  | v =>
    (assignDoc (pyStr courseName) (pyStr v) "No due date" "" "",
     ⟨"assignment", courseName, some (.str (pyStr v))⟩)

/- main.py lines 90-132: one document and one metadata record per quiz. -/
def flattenQuiz (courseName : JVal) (q : JVal) : String × MetaRec :=
  match q with
  | .obj fs =>
    let qTitle := dictGet fs "title" (.str "Unnamed Quiz")
    let dueStr := dictGet fs "due_at" (.str "No due date")
    let due := normDue dueStr
    let qDesc := dictGet fs "description" (.str "No description")
    let submission := dictGet fs "submission" (.obj [])
    let subScores := subScoresOf submission
    (quizDoc (pyStr courseName) (pyStr qTitle) (pyStr due) (pyStr qDesc) (pyStr subScores),
     ⟨"quiz", courseName, some qTitle⟩)
  | v =>
    (quizDoc (pyStr courseName) (pyStr v) "No due date" "" "",
     ⟨"quiz", courseName, some (.str (pyStr v))⟩)

/- main.py lines 33-132: the per-course block. The overview document comes
first, then one document per assignment, then one per quiz; none models an
uncaught exception (a non-dict course or a non-iterable section value). -/
def flattenCourse (course : JVal) : Option (List String × List MetaRec) :=
  match course with
  | .obj fs =>
    let courseName := dictGet fs "name" (.str "Unknown Course")
    let courseCode := dictGet fs "course_code" (.str "No code")
    let descVal := dictGet fs "description" .null
    let courseDoc :=
      "**Course:** " ++ pyStr courseName ++ "\n**Code:** " ++ pyStr courseCode ++ "\n"
        ++ (if truthy descVal then "**Description:** " ++ pyStr descVal ++ "\n" else "")
    match pyIter (dictGet fs "assignments" (.arr [])),
          pyIter (dictGet fs "quizzes" (.arr [])) with
    | some as, some qs =>
      let aOut := as.map (flattenAssignment courseName)
      let qOut := qs.map (flattenQuiz courseName)
      some (courseDoc :: (aOut.map Prod.fst ++ qOut.map Prod.fst),
            ⟨"course", courseName, none⟩ :: (aOut.map Prod.snd ++ qOut.map Prod.snd))
    | _, _ => none
  | _ => none

def flattenCourses : List JVal → Option (List String × List MetaRec)
  | [] => some ([], [])
  | c :: rest =>
    match flattenCourse c, flattenCourses rest with
    | some (ds, ms), some (ds2, ms2) => some (ds ++ ds2, ms ++ ms2)
    | _, _ => none

/- main.py lines 22-134 applied to an already-loaded JSON value. -/
def load_and_process_data (canvas_data : JVal) : Option (List String × List MetaRec) :=
  match canvas_data with
  | .obj fs =>
    match pyIter (dictGet fs "courses" (.arr [])) with
    | some cs => flattenCourses cs
    | none => none
  | _ => none

/- Course Data Fetcher: the course filter of src/backend/Scraper.py. -/

/- Scraper.py line 40: course.start_at.replace("Z", "+00:00"). -/
def replaceZ : List Char → List Char
  | [] => []
  | 'Z' :: cs => '+' :: '0' :: '0' :: ':' :: '0' :: '0' :: replaceZ cs
  | c :: cs => c :: replaceZ cs

/- The cutoff of Scraper.py line 26: 2025-01-01 00:00:00 UTC. -/
def cutoffSec : Int := daysFromCivil 2025 1 1 * 86400

inductive CourseDecision where
  /- The course is processed and appended to the dataset. -/
  | keep
  /- The course is skipped by the continue at Scraper.py line 47. -/
  | skip
  /- The whole scrape aborts: comparing an offset-naive parsed start with the
  offset-aware cutoff at Scraper.py line 45 raises an uncaught TypeError. -/
  | crash
deriving DecidableEq

/- Scraper.py lines 37-47: the start-date check. The argument is the start_at
attribute, none when absent or null. -/
def courseFilter (start_at : Option String) : CourseDecision :=
  match start_at with
  | none => .keep
  | some s =>
    if s = "" then .keep
    else
      match parseISO (String.mk (replaceZ s.data)) with
      | none => .keep
      | some dt =>
        match dt.off with
        | none => .crash
        | some off => if dtToEpochSec dt off < cutoffSec then .skip else .keep

/- The submission record stored by the fetcher for an assignment,
Scraper.py lines 81-87: note the key is score, not scores. -/
def assignment_submission_record (submitted_at score grade workflow_state submission_comments : JVal) : JVal :=
  .obj [("submitted_at", submitted_at), ("score", score), ("grade", grade),
        ("workflow_state", workflow_state), ("submission_comments", submission_comments)]

/- The quiz submission record stored by the fetcher, Scraper.py lines 110-113. -/
def quiz_submission_record (score graded_at : JVal) : JVal :=
  .obj [("score", score), ("graded_at", graded_at)]

/- The assignment record stored by the fetcher, Scraper.py lines 90-97. -/
def fetcher_assignment_record (i nm due desc pts submission : JVal) : JVal :=
  .obj [("id", i), ("name", nm), ("due_at", due), ("description", desc),
        ("points_possible", pts), ("submission", submission)]

/- The quiz record stored by the fetcher, Scraper.py lines 118-125. -/
def fetcher_quiz_record (i ti due desc pts submission : JVal) : JVal :=
  .obj [("id", i), ("title", ti), ("due_at", due), ("description", desc),
        ("points_possible", pts), ("submission", submission)]

/- Embedding Index: build_faiss_index and the search call of main.py. -/

/- Python list indexing with a default; every use in the modeled code has an
in-range index. -/
def nthD : List α → Nat → α → α
  | [], _, d => d
  | x :: _, 0, _ => x
  | _ :: xs, n + 1, d => nthD xs n d

/- Squared Euclidean distance of two integer vectors, the metric of
faiss.IndexFlatL2. -/
def l2sq : List Int → List Int → Int
  | x :: xs, y :: ys => (x - y) ^ 2 + l2sq xs ys
  | _, _ => 0

/- Distance from a query vector to index position i of the vector store. -/
def qdist (db : List (List Int)) (q : List Int) (i : Nat) : Int :=
  l2sq q (nthD db i [])

/- Stable insertion of an index into a list already sorted by key. -/
def insertByKey (key : Nat → Int) (i : Nat) : List Nat → List Nat
  | [] => [i]
  | j :: rest => if key i ≤ key j then i :: j :: rest else j :: insertByKey key i rest

/- Stable sort of index positions by ascending key. -/
def sortByKey (key : Nat → Int) : List Nat → List Nat
  | [] => []
  | i :: rest => insertByKey key i (sortByKey key rest)

/- index.search(q, k) of faiss.IndexFlatL2: the k index positions closest to
the query in ascending distance order. -/
def searchIdx (db : List (List Int)) (q : List Int) (k : Nat) : List Nat :=
  (sortByKey (qdist db q) (List.range db.length)).take k

/- build_faiss_index of main.py lines 139-149: encode every document in order
and add the vectors to a fresh flat index. The stored vector sequence is the
whole index state; its length is index.ntotal. -/
def build_faiss_index (enc : String → List Int) (documents : List String) : List (List Int) :=
  documents.map enc

/- Conversation Service: the chat and reset-chat endpoints of main.py. -/

/- The immutable per-process context built at startup. gen models the Gemini
call: it maps the model input to either a response text or a raised error. -/
structure ChatEnv where
  documents : List String
  db : List (List Int)
  encode : String → List Int
  instructions : String
  dateTime : String
  gen : String → Except String String

inductive ChatResp where
  | ok (response : String)
  | err (code : Nat) (msg : String)
deriving DecidableEq

/- conversation_histories, a dict from session id to transcript. -/
abbrev HistMap := List (String × String)

def lookupH : HistMap → String → Option String
  | [], _ => none
  | (k, v) :: rest, sid => if k = sid then some v else lookupH rest sid

/- Python dict assignment: overwrite in place, or append a new binding. -/
def setH : HistMap → String → String → HistMap
  | [], sid, v => [(sid, v)]
  | (k, w) :: rest, sid, v =>
      if k = sid then (k, v) :: rest else (k, w) :: setH rest sid v

/- main.py lines 197-198: lazily create the session history. -/
def initSession (hm : HistMap) (sid : String) : HistMap :=
  if (lookupH hm sid).isSome then hm else setH hm sid ""

/- Python "\n".join. -/
def joinSep (sep : String) : List String → String
  | [] => ""
  | [x] => x
  | x :: xs => x ++ sep ++ joinSep sep xs

/- Python str.strip(): whitespace removed from both ends. -/
def isPySpace (c : Char) : Bool :=
  c == ' ' || c == '\t' || c == '\n' || c == '\x0d' || c == '\x0b' || c == '\x0c'

def pyStrip (s : String) : String :=
  String.mk (((s.data.dropWhile isPySpace).reverse.dropWhile isPySpace).reverse)

/- Python len() of a string, in characters. -/
def pyLenStr (s : String) : Nat := s.data.length

/- Python s[-n:], the suffix of at most n characters. -/
def pyTail (s : String) (n : Nat) : String :=
  String.mk (s.data.drop (s.data.length - n))

/- main.py lines 231-232: the history bound applied after a completed turn. -/
def pyTrunc (s : String) : String :=
  if 10000 < pyLenStr s then pyTail s 10000 else s

/- The indices retrieved for a message: k is clamped to the corpus size at
main.py line 205 before the index is searched. -/
def retrievedIdxs (env : ChatEnv) (msg : String) : List Nat :=
  searchIdx env.db (env.encode msg) (min 10 env.documents.length)

def retrievedDocs (env : ChatEnv) (msg : String) : List String :=
  (retrievedIdxs env msg).map (fun i => nthD env.documents i "")

/- The full prompt of main.py lines 215-220. -/
def fullPrompt (env : ChatEnv) (msg : String) : String :=
  env.instructions ++ "\n\n"
    ++ "Current Date and Time: " ++ env.dateTime ++ "\n\n"
    ++ "Canvas Data Context:\n" ++ joinSep "\n" (retrievedDocs env msg) ++ "\n\n"
    ++ "User: " ++ msg ++ "\nAssistant:"

/- The text handed to the generative model at main.py line 224: the stored
session history with a newline and the full prompt already appended. -/
def geminiInput (env : ChatEnv) (hm : HistMap) (msg sid : String) : String :=
  (lookupH hm sid).getD "" ++ "\n" ++ fullPrompt env msg

/- The transcript text a completed turn would store before truncation. -/
def turnAppended (env : ChatEnv) (hm : HistMap) (msg sid resp : String) : String :=
  geminiInput env hm msg sid ++ " " ++ pyStrip resp

/- The chat endpoint of main.py lines 186-236, as a function from the stored
history map to the updated map and the response. The prompt is appended to
the stored history before the model call, so a raised model call leaves the
prompt recorded; the response is appended and the bound applied only after
the call returns. -/
def chatStep (env : ChatEnv) (hm : HistMap) (msg sid : String) : HistMap × ChatResp :=
  if msg = "" then (hm, .err 400 "No message provided")
  else
    let hm1 := initSession hm sid
    let h1 := geminiInput env hm1 msg sid
    match env.gen h1 with
    | .error e => (setH hm1 sid h1, .err 500 e)
    | .ok t =>
      let ai := pyStrip t
      (setH hm1 sid (pyTrunc (h1 ++ " " ++ ai)), .ok ai)

/- The reset-chat endpoint of main.py lines 238-247. -/
def resetChat (hm : HistMap) (sid : String) : HistMap × String :=
  (if (lookupH hm sid).isSome then setH hm sid "" else hm,
   "Conversation reset successfully")

/- Data summary: get_data_summary of main.py lines 249-275. -/

structure DataSummary where
  userName : JVal
  userId : JVal
  perCourse : List (JVal × Nat × Nat)
  totalAssignments : Nat
  totalQuizzes : Nat

/- One entry of the courses list comprehension, main.py lines 262-266. -/
def summarizeCourse (c : JVal) : Option (JVal × Nat × Nat) :=
  match c with
  | .obj cf =>
    match pyJLen (dictGet cf "assignments" (.arr [])),
          pyJLen (dictGet cf "quizzes" (.arr [])) with
    | some ac, some qc => some (dictGet cf "name" (.str "Unknown Course"), ac, qc)
    | _, _ => none
  | _ => none

def summarizeCourses : List JVal → Option (List (JVal × Nat × Nat))
  | [] => some []
  | c :: rest =>
    match summarizeCourse c, summarizeCourses rest with
    | some x, some xs => some (x :: xs)
    | _, _ => none

/- The totals generators of main.py lines 269-270, a second pass over the
course list. -/
def totalCount (key : String) : List JVal → Option Nat
  | [] => some 0
  | c :: rest =>
    match (match c with
           | .obj cf => pyJLen (dictGet cf key (.arr []))
           | _ => none),
          totalCount key rest with
    | some n, some m => some (n + m)
    | _, _ => none

/- get_data_summary applied to the loaded dataset; none models the handler
catching an exception and returning the 500 error body. -/
def get_data_summary (data : JVal) : Option DataSummary :=
  match data with
  | .obj fs =>
    match dictGet fs "user" (.obj []) with
    | .obj ufs =>
      match pyIter (dictGet fs "courses" (.arr [])) with
      | some cs =>
        match summarizeCourses cs, totalCount "assignments" cs, totalCount "quizzes" cs with
        | some per, some ta, some tq =>
          some { userName := dictGet ufs "name" (.str "Student"),
                 userId := dictGet ufs "id" (.str "Unknown"),
                 perCourse := per,
                 totalAssignments := ta,
                 totalQuizzes := tq }
        | _, _, _ => none
      | none => none
    | _ => none
  | _ => none

/- Concrete instances used by witnesses and counterexamples. -/

def wDocs1 : List String := ["a", "bb"]

def wEnc1 : String → List Int := fun s => [(s.data.length : Int)]

def cEnv2 : ChatEnv :=
  ⟨[], [], fun _ => [], "", "", fun _ => .error "model down"⟩

def wCf3 : List (String × JVal) :=
  [("assignments", .arr [.null, .str "x"]), ("quizzes", .arr [.obj []])]

def wEnv6 : ChatEnv :=
  ⟨["d0", "d1"], [[0], [1]], fun s => [(s.data.length : Int)], "I", "T",
   fun _ => Except.ok " r "⟩

def wBig7 : String := String.mk (List.replicate 10001 'a')

def wEnv7 : ChatEnv := ⟨[], [], fun _ => [], "", "", fun _ => Except.ok wBig7⟩

/- A dataset course whose sections are lists, used to compare the summary
against the recorded counts. -/
def mkSummaryCourse (t : JVal × List JVal × List JVal) : JVal :=
  .obj [("name", t.1), ("assignments", .arr t.2.1), ("quizzes", .arr t.2.2)]

/- The count described by the specification sentence: the number of
assignments or quizzes recorded for a course in the dataset. A section that
holds anything other than a list records no assignments or quizzes. This
definition follows the words of the claim and is compared with
get_data_summary. -/
def specRecordedCount (course : JVal) (key : String) : Nat :=
  match course with
  | .obj cf =>
    match dictFind cf key with
    | some (.arr xs) => xs.length
    | _ => 0
  | _ => 0

/- A course whose assignments section holds the error string the fetcher
writes when retrieval fails (Scraper.py line 99). -/
def badCourse : JVal :=
  .obj [("name", .str "X"),
        ("assignments", .str "Error retrieving assignments: boom"),
        ("quizzes", .arr [])]

def badData : JVal := .obj [("user", .obj []), ("courses", .arr [badCourse])]

/- Supporting lemmas about the sorted search. -/

theorem mem_insertByKey (key : Nat → Int) (x y : Nat) (l : List Nat) :
    y ∈ insertByKey key x l ↔ y = x ∨ y ∈ l := by
  induction l with
  | nil => simp [insertByKey]
  | cons j rest ih =>
    by_cases h : key x ≤ key j
    · simp [insertByKey, h]
    · simp [insertByKey, h, ih]
      tauto

theorem mem_sortByKey (key : Nat → Int) (y : Nat) (l : List Nat) :
    y ∈ sortByKey key l ↔ y ∈ l := by
  induction l with
  | nil => simp [sortByKey]
  | cons j rest ih =>
    simp [sortByKey, mem_insertByKey, ih]

theorem length_insertByKey (key : Nat → Int) (x : Nat) (l : List Nat) :
    (insertByKey key x l).length = l.length + 1 := by
  induction l with
  | nil => rfl
  | cons j rest ih =>
    by_cases h : key x ≤ key j <;> simp [insertByKey, h, ih]

theorem length_sortByKey (key : Nat → Int) (l : List Nat) :
    (sortByKey key l).length = l.length := by
  induction l with
  | nil => rfl
  | cons j rest ih => simp [sortByKey, length_insertByKey, ih]

theorem pairwise_insertByKey (key : Nat → Int) (x : Nat) (l : List Nat)
    (h : l.Pairwise (fun a b => key a ≤ key b)) :
    (insertByKey key x l).Pairwise (fun a b => key a ≤ key b) := by
  induction l with
  | nil => simp [insertByKey]
  | cons j rest ih =>
    rcases List.pairwise_cons.mp h with ⟨hj, hrest⟩
    by_cases hx : key x ≤ key j
    · simp only [insertByKey, if_pos hx]
      refine List.pairwise_cons.mpr ⟨?_, h⟩
      intro b hb
      rcases List.mem_cons.mp hb with hbj | hb
      · exact hbj ▸ hx
      · exact le_trans hx (hj b hb)
    · simp only [insertByKey, if_neg hx]
      refine List.pairwise_cons.mpr ⟨?_, ih hrest⟩
      intro b hb
      rcases (mem_insertByKey key x b rest).mp hb with hbx | hb
      · exact hbx ▸ le_of_not_le hx
      · exact hj b hb

theorem pairwise_sortByKey (key : Nat → Int) (l : List Nat) :
    (sortByKey key l).Pairwise (fun a b => key a ≤ key b) := by
  induction l with
  | nil => simp [sortByKey]
  | cons j rest ih => exact pairwise_insertByKey key j (sortByKey key rest) ih

theorem sortByKey_strict_min_cons (key : Nat → Int) (l : List Nat) (i : Nat)
    (hmem : i ∈ l) (hmin : ∀ j ∈ l, j ≠ i → key i < key j) :
    ∃ t, sortByKey key l = i :: t := by
  cases e : sortByKey key l with
  | nil =>
    exfalso
    have hi : i ∈ sortByKey key l := (mem_sortByKey key i l).mpr hmem
    rw [e] at hi
    exact (List.not_mem_nil i) hi
  | cons h t =>
    have hmemh : h ∈ sortByKey key l := by
      rw [e]; exact List.mem_cons_self h t
    have hl : h ∈ l := (mem_sortByKey key h l).mp hmemh
    by_cases hhi : h = i
    · exact ⟨t, by rw [hhi]⟩
    · exfalso
      have hisort : i ∈ sortByKey key l := (mem_sortByKey key i l).mpr hmem
      rw [e] at hisort
      rcases List.mem_cons.mp hisort with hih | hit
      · exact hhi hih.symm
      · have hpw := pairwise_sortByKey key l
        rw [e] at hpw
        have hle := List.rel_of_pairwise_cons hpw hit
        exact absurd hle (not_le_of_lt (hmin h hl hhi))

theorem l2sq_self (a : List Int) : l2sq a a = 0 := by
  induction a with
  | nil => rfl
  | cons x xs ih => simp [l2sq, ih]

theorem l2sq_nonneg (a b : List Int) : 0 ≤ l2sq a b := by
  induction a generalizing b with
  | nil => cases b <;> simp [l2sq]
  | cons x xs ih =>
    cases b with
    | nil => simp [l2sq]
    | cons y ys => exact add_nonneg (sq_nonneg _) (ih ys)

theorem l2sq_pos (a b : List Int) (hlen : a.length = b.length) (hne : a ≠ b) :
    0 < l2sq a b := by
  induction a generalizing b with
  | nil =>
    cases b with
    | nil => exact absurd rfl hne
    | cons y ys => simp at hlen
  | cons x xs ih =>
    cases b with
    | nil => simp at hlen
    | cons y ys =>
      by_cases hxy : x = y
      · subst hxy
        have hne2 : xs ≠ ys := fun hEq => hne (by rw [hEq])
        have hpos := ih ys (by simpa using hlen) hne2
        have : l2sq (x :: xs) (x :: ys) = 0 + l2sq xs ys := by
          simp [l2sq]
        rw [this]
        omega
      · have hsq : 0 < (x - y) ^ 2 := by
          have : x - y ≠ 0 := sub_ne_zero.mpr hxy
          positivity
        exact add_pos_of_pos_of_nonneg hsq (l2sq_nonneg xs ys)

theorem nthD_map (f : α → β) (l : List α) (i : Nat) (d : β) (d2 : α)
    (h : i < l.length) : nthD (l.map f) i d = f (nthD l i d2) := by
  induction l generalizing i with
  | nil => simp at h
  | cons x xs ih =>
    cases i with
    | zero => rfl
    | succ n =>
      have : n < xs.length := by simpa using h
      exact ih n this

theorem length_searchIdx (db : List (List Int)) (q : List Int) (k : Nat) :
    (searchIdx db q k).length = min k db.length := by
  simp [searchIdx, List.length_take, length_sortByKey]

theorem pairwise_searchIdx (db : List (List Int)) (q : List Int) (k : Nat) :
    (searchIdx db q k).Pairwise (fun i j => qdist db q i ≤ qdist db q j) :=
  List.Pairwise.sublist (List.take_sublist k _)
    (pairwise_sortByKey (qdist db q) (List.range db.length))

/- Supporting lemmas about the history map. -/

theorem lookupH_setH_self (m : HistMap) (sid v : String) :
    lookupH (setH m sid v) sid = some v := by
  induction m with
  | nil => simp [setH, lookupH]
  | cons p rest ih =>
    by_cases h : p.1 = sid
    · simp [setH, lookupH, h]
    · simp [setH, lookupH, h, ih]

theorem lookupH_setH_ne (m : HistMap) (sid v s : String) (h : s ≠ sid) :
    lookupH (setH m sid v) s = lookupH m s := by
  have hsids : sid ≠ s := fun hEq => h hEq.symm
  induction m with
  | nil => simp [setH, lookupH, hsids]
  | cons p rest ih =>
    by_cases hp : p.1 = sid
    · have hp1s : p.1 ≠ s := by rw [hp]; exact hsids
      simp [setH, lookupH, hp, hp1s, hsids]
    · by_cases hps : p.1 = s
      · simp [setH, lookupH, hp, hps, h, hsids]
      · simp [setH, lookupH, hp, hps, ih]

theorem lookupH_initSession_self (hm : HistMap) (sid : String) :
    lookupH (initSession hm sid) sid = some ((lookupH hm sid).getD "") := by
  rw [initSession]
  cases e : lookupH hm sid with
  | none => simp [e, lookupH_setH_self]
  | some v => simp [e]

theorem lookupH_initSession_ne (hm : HistMap) (sid s : String) (h : s ≠ sid) :
    lookupH (initSession hm sid) s = lookupH hm s := by
  rw [initSession]
  cases e : lookupH hm sid with
  | none => simp [e, lookupH_setH_ne hm sid "" s h]
  | some v => simp [e]

theorem geminiInput_init (env : ChatEnv) (hm : HistMap) (msg sid : String) :
    geminiInput env (initSession hm sid) msg sid = geminiInput env hm msg sid := by
  rw [geminiInput, geminiInput, lookupH_initSession_self]
  simp

/- Claim theorems. -/

/-- C1: the index built at startup has exactly one vector per flattened
document (index.ntotal equals the document count), position i of the index
holds the encoding of document i, and for a corpus whose documents have
pairwise-distinct fixed-dimension encodings, searching with the encoding of
document i returns i among the nearest neighbors retrieved by the chat
endpoint (k clamped to the corpus size). Neither structure has a mutation
path after the one-shot build, so the alignment is process-lifetime. -/
theorem C1_index_alignment (documents : List String) (enc : String → List Int)
    (d i : Nat) (hi : i < documents.length)
    (hdim : ∀ j, j < documents.length → (enc (nthD documents j "")).length = d)
    (hdist : ∀ j, j < documents.length → j ≠ i →
      enc (nthD documents j "") ≠ enc (nthD documents i "")) :
    (build_faiss_index enc documents).length = documents.length
    ∧ nthD (build_faiss_index enc documents) i [] = enc (nthD documents i "")
    ∧ i ∈ searchIdx (build_faiss_index enc documents)
        (enc (nthD documents i "")) (min 10 documents.length) := by
  have hn : (build_faiss_index enc documents).length = documents.length := by
    simp [build_faiss_index]
  refine ⟨hn, nthD_map enc documents i [] "" hi, ?_⟩
  set db := build_faiss_index enc documents with hdb
  set q := enc (nthD documents i "") with hq
  have hkey0 : qdist db q i = 0 := by
    rw [qdist, hdb, build_faiss_index, nthD_map enc documents i [] "" hi, ← hq, l2sq_self]
  have hkeypos : ∀ j, j < documents.length → j ≠ i → 0 < qdist db q j := by
    intro j hj hji
    rw [qdist, hdb, build_faiss_index, nthD_map enc documents j [] "" hj]
    refine l2sq_pos _ _ ?_ ?_
    · rw [hq, hdim i hi, hdim j hj]
    · intro hEq
      exact hdist j hj hji (by rw [← hEq, hq])
  obtain ⟨t, ht⟩ := sortByKey_strict_min_cons (qdist db q) (List.range db.length) i
    (by rw [hn]; exact List.mem_range.mpr hi)
    (by
      intro j hjmem hji
      rw [hn] at hjmem
      rw [hkey0]
      exact hkeypos j (List.mem_range.mp hjmem) hji)
  have hk : ∃ m, min 10 documents.length = m + 1 := by
    refine ⟨min 10 documents.length - 1, ?_⟩
    omega
  obtain ⟨m, hm⟩ := hk
  rw [searchIdx, ht, hm]
  simp

theorem C1_index_alignment_witness :
    (0 < wDocs1.length)
    ∧ (∀ j, j < wDocs1.length → (wEnc1 (nthD wDocs1 j "")).length = 1)
    ∧ (∀ j, j < wDocs1.length → j ≠ 0 →
        wEnc1 (nthD wDocs1 j "") ≠ wEnc1 (nthD wDocs1 0 ""))
    ∧ ((build_faiss_index wEnc1 wDocs1).length = wDocs1.length
       ∧ nthD (build_faiss_index wEnc1 wDocs1) 0 [] = wEnc1 (nthD wDocs1 0 "")
       ∧ 0 ∈ searchIdx (build_faiss_index wEnc1 wDocs1)
           (wEnc1 (nthD wDocs1 0 "")) (min 10 wDocs1.length)) :=
  ⟨by decide, by decide, by decide,
   C1_index_alignment wDocs1 wEnc1 1 0 (by decide) (by decide) (by decide)⟩

/-- C2, counterexample: a request on which the model call raises does not
leave the stored history of the session as it was before the request. With
the session history previously "old", the failed turn stores the history
with the newline-prefixed full prompt appended (main.py line 222 runs before
the model call of line 224), so the claim is false; the structured error
with no partial response is returned as claimed. -/
theorem C2_counterexample :
    lookupH (chatStep cEnv2 [("s", "old")] "hi" "s").1 "s" ≠ some "old"
    ∧ (chatStep cEnv2 [("s", "old")] "hi" "s").2 = ChatResp.err 500 "model down" := by
  decide

/-- C2, amended: when the model call raises, the request returns the
structured 500 error carrying the exception text and no partial response,
and the stored history of the session equals the pre-request history with a
newline and the full prompt appended (the response is never appended and the
truncation never applied on a failed turn); histories of all other sessions
are unchanged. -/
theorem C2_error_isolation (env : ChatEnv) (hm : HistMap) (msg sid e : String)
    (hmsg : msg ≠ "")
    (herr : env.gen (geminiInput env hm msg sid) = Except.error e) :
    (chatStep env hm msg sid).2 = .err 500 e
    ∧ lookupH (chatStep env hm msg sid).1 sid = some (geminiInput env hm msg sid)
    ∧ (∀ s, s ≠ sid → lookupH (chatStep env hm msg sid).1 s = lookupH hm s) := by
  have hgi := geminiInput_init env hm msg sid
  simp only [chatStep, if_neg hmsg, hgi, herr]
  refine ⟨trivial, lookupH_setH_self _ _ _, ?_⟩
  intro s hs
  rw [lookupH_setH_ne _ _ _ _ hs, lookupH_initSession_ne _ _ _ hs]

theorem C2_error_isolation_witness :
    ("hi" : String) ≠ ""
    ∧ cEnv2.gen (geminiInput cEnv2 [("s", "old")] "hi" "s") = Except.error "model down"
    ∧ ((chatStep cEnv2 [("s", "old")] "hi" "s").2 = .err 500 "model down"
       ∧ lookupH (chatStep cEnv2 [("s", "old")] "hi" "s").1 "s"
           = some (geminiInput cEnv2 [("s", "old")] "hi" "s")
       ∧ (∀ s, s ≠ "s" →
           lookupH (chatStep cEnv2 [("s", "old")] "hi" "s").1 s
             = lookupH [("s", "old")] s)) :=
  ⟨by decide, rfl,
   C2_error_isolation cEnv2 [("s", "old")] "hi" "s" "model down" (by decide) rfl⟩

/-- C3: the flattener emits exactly one document and one parallel metadata
record per course overview, per assignment and per quiz, whatever the
element values are (first conjunct: the per-course output lengths are
1 + assignments + quizzes on both sequences); an assignment or quiz record
with no due_at, description or submission key renders the fixed placeholder
strings No due date, No description and No submission rather than being
omitted (second and third conjuncts). -/
theorem C3_flattener_total (cf : List (String × JVal)) (as qs : List JVal)
    (cn : JVal) (fs : List (String × JVal))
    (ha : dictGet cf "assignments" (.arr []) = .arr as)
    (hq : dictGet cf "quizzes" (.arr []) = .arr qs)
    (hdue : dictFind fs "due_at" = none)
    (hdesc : dictFind fs "description" = none)
    (hsub : dictFind fs "submission" = none) :
    (flattenCourse (.obj cf)).map (fun p => (p.1.length, p.2.length))
      = some (1 + as.length + qs.length, 1 + as.length + qs.length)
    ∧ (flattenAssignment cn (.obj fs)).1
        = assignDoc (pyStr cn) (pyStr (dictGet fs "name" (.str "Unnamed Assignment")))
            "No due date" "No description" "No submission"
    ∧ (flattenQuiz cn (.obj fs)).1
        = quizDoc (pyStr cn) (pyStr (dictGet fs "title" (.str "Unnamed Quiz")))
            "No due date" "No description" "No submission" := by
  refine ⟨?_, ?_, ?_⟩
  · simp only [flattenCourse, ha, hq, pyIter, Option.map_some]
    simp [List.length_append]
    omega
  · simp [flattenAssignment, dictGet, hdue, hdesc, hsub, normDue, truthy, jStrEq,
      subScoresOf, pyStr, tryParseRender, dictFind]
  · simp [flattenQuiz, dictGet, hdue, hdesc, hsub, normDue, truthy, jStrEq,
      subScoresOf, pyStr, tryParseRender, dictFind]

theorem C3_flattener_total_witness :
    dictGet wCf3 "assignments" (.arr []) = .arr [.null, .str "x"]
    ∧ dictGet wCf3 "quizzes" (.arr []) = .arr [.obj []]
    ∧ dictFind ([] : List (String × JVal)) "due_at" = none
    ∧ dictFind ([] : List (String × JVal)) "description" = none
    ∧ dictFind ([] : List (String × JVal)) "submission" = none
    ∧ (flattenCourse (.obj wCf3)).map (fun p => (p.1.length, p.2.length))
        = some (1 + 2 + 1, 1 + 2 + 1) :=
  ⟨rfl, rfl, rfl, rfl, rfl,
   (C3_flattener_total wCf3 [.null, .str "x"] [.obj []] (.str "C") []
      rfl rfl rfl rfl rfl).1⟩

/-- C4: evaluation of the course filter at the failing input. A start
timestamp of 2025-06-01T00:00:00 is present, nonempty, and parses
successfully, but the parsed value is offset-naive, so the comparison with
the offset-aware cutoff at Scraper.py line 45 raises an uncaught TypeError
and the whole scrape aborts, while the claim requires a course starting at
or after the cutoff to be included. On the fetcher wire format (offset-aware
timestamps) the filter behaves exactly as claimed: keep at or after the
cutoff, skip strictly before it, keep on absent or unparseable values. -/
theorem C4_start_filter :
    courseFilter (some "2025-06-01T00:00:00") = CourseDecision.crash
    ∧ courseFilter (some "2025-06-01T00:00:00Z") = CourseDecision.keep
    ∧ courseFilter (some "2025-01-01T00:00:00Z") = CourseDecision.keep
    ∧ courseFilter (some "2024-12-31T23:59:59Z") = CourseDecision.skip
    ∧ courseFilter (some "2024-06-01T00:00:00Z") = CourseDecision.skip
    ∧ courseFilter (some "garbage") = CourseDecision.keep
    ∧ courseFilter none = CourseDecision.keep := by
  decide

/-- C5: due-date normalization. On any parse failure the raw stored string
is rendered unchanged (first conjunct); the stored date
2025-03-10T23:59:00Z is parsed, treated as UTC, converted to
America/New_York and rendered as 2025-03-10 07:59 PM EDT (second conjunct);
and the flattened document of an assignment carrying that due date renders
exactly that local string (third conjunct). -/
theorem C5_due_date_normalization (s : String) (hfail : parseISO s = none) :
    normDue (.str s) = .str s
    ∧ normDue (.str "2025-03-10T23:59:00Z") = .str "2025-03-10 07:59 PM EDT"
    ∧ (flattenAssignment (.str "CS101")
        (.obj [("name", .str "HW1"), ("due_at", .str "2025-03-10T23:59:00Z")])).1
      = "**Assignment in CS101:**\n- **Name:** HW1\n- **Due Date:** 2025-03-10 07:59 PM EDT\n- **Description:** No description\n- **Submission Scores:** No submission\n" := by
  refine ⟨?_, by rfl, by rfl⟩
  rw [normDue]
  by_cases h : truthy (.str s) && !jStrEq (.str s) "No due date"
  · rw [if_pos h]
    simp only [tryParseRender, hfail]
  · rw [if_neg h]

theorem C5_due_date_normalization_witness :
    parseISO "not a date" = none
    ∧ normDue (.str "not a date") = .str "not a date" :=
  ⟨by decide, (C5_due_date_normalization "not a date" (by decide)).1⟩

/-- C6: retrieval size and order. When the index holds one vector per
document, the number of indices retrieved for context equals the minimum of
the requested k = 10 and the corpus size, the retrieved document list has
that same length, results come in ascending squared-distance order, a corpus
smaller than 10 yields exactly corpus-size results, and the request then
completes with the model response rather than an error. -/
theorem C6_retrieval_clamp (env : ChatEnv) (hm : HistMap) (msg sid resp : String)
    (hdb : env.db.length = env.documents.length)
    (_hne : env.documents ≠ [])
    (hmsg : msg ≠ "")
    (hok : env.gen (geminiInput env hm msg sid) = Except.ok resp) :
    (retrievedIdxs env msg).length = min 10 env.documents.length
    ∧ (retrievedDocs env msg).length = min 10 env.documents.length
    ∧ (retrievedIdxs env msg).Pairwise
        (fun i j => qdist env.db (env.encode msg) i ≤ qdist env.db (env.encode msg) j)
    ∧ (env.documents.length < 10 → (retrievedDocs env msg).length = env.documents.length)
    ∧ (chatStep env hm msg sid).2 = .ok (pyStrip resp) := by
  have hlen : (retrievedIdxs env msg).length = min 10 env.documents.length := by
    rw [retrievedIdxs, length_searchIdx, hdb]
    omega
  have hdocs : (retrievedDocs env msg).length = min 10 env.documents.length := by
    rw [retrievedDocs, List.length_map, hlen]
  refine ⟨hlen, hdocs, pairwise_searchIdx _ _ _, ?_, ?_⟩
  · intro hsmall
    rw [hdocs]
    omega
  · have hgi := geminiInput_init env hm msg sid
    simp only [chatStep, if_neg hmsg, hgi, hok]

theorem C6_retrieval_clamp_witness :
    wEnv6.db.length = wEnv6.documents.length
    ∧ wEnv6.documents ≠ []
    ∧ ("q" : String) ≠ ""
    ∧ wEnv6.gen (geminiInput wEnv6 [] "q" "s") = Except.ok " r "
    ∧ (retrievedDocs wEnv6 "q").length = min 10 wEnv6.documents.length
    ∧ (wEnv6.documents.length < 10 → (retrievedDocs wEnv6 "q").length = wEnv6.documents.length)
    ∧ (chatStep wEnv6 [] "q" "s").2 = .ok (pyStrip " r ") := by
  have h := C6_retrieval_clamp wEnv6 [] "q" "s" " r " rfl (by decide) (by decide) rfl
  exact ⟨rfl, by decide, by decide, rfl, h.2.1, h.2.2.2.1, h.2.2.2.2⟩

/-- C7: history truncation. After a completed turn the stored history of the
session is the appended transcript passed through the bound of main.py
lines 231-232 (first conjunct); whenever the appended transcript exceeds
10000 characters, exactly its last 10000 characters (the suffix) are
retained and the stored length is exactly 10000 (second conjunct); the
stored length never exceeds 10000 after a completed turn (third conjunct);
the history of every other session is untouched by the turn (fourth
conjunct). -/
theorem C7_history_truncation (env : ChatEnv) (hm : HistMap) (msg sid resp : String)
    (hmsg : msg ≠ "")
    (hok : env.gen (geminiInput env hm msg sid) = Except.ok resp) :
    lookupH (chatStep env hm msg sid).1 sid
        = some (pyTrunc (turnAppended env hm msg sid resp))
    ∧ (10000 < pyLenStr (turnAppended env hm msg sid resp) →
        pyTrunc (turnAppended env hm msg sid resp)
          = pyTail (turnAppended env hm msg sid resp) 10000
        ∧ pyLenStr (pyTrunc (turnAppended env hm msg sid resp)) = 10000)
    ∧ pyLenStr (pyTrunc (turnAppended env hm msg sid resp)) ≤ 10000
    ∧ (∀ s, s ≠ sid → lookupH (chatStep env hm msg sid).1 s = lookupH hm s) := by
  have hgi := geminiInput_init env hm msg sid
  have htail : ∀ s : String, 10000 < pyLenStr s → pyLenStr (pyTail s 10000) = 10000 := by
    intro s hlen
    rw [pyLenStr, pyTail]
    simp only [List.length_drop]
    rw [pyLenStr] at hlen
    omega
  refine ⟨?_, ?_, ?_, ?_⟩
  · simp only [chatStep, if_neg hmsg, hgi, hok]
    rw [lookupH_setH_self]
    rfl
  · intro hlen
    rw [pyTrunc, if_pos hlen]
    exact ⟨rfl, htail _ hlen⟩
  · rw [pyTrunc]
    by_cases hlen : 10000 < pyLenStr (turnAppended env hm msg sid resp)
    · rw [if_pos hlen, htail _ hlen]
    · rw [if_neg hlen]
      omega
  · intro s hs
    simp only [chatStep, if_neg hmsg, hgi, hok]
    rw [lookupH_setH_ne _ _ _ _ hs, lookupH_initSession_ne _ _ _ hs]

theorem C7_history_truncation_witness :
    ("hi" : String) ≠ ""
    ∧ wEnv7.gen (geminiInput wEnv7 [] "hi" "s") = Except.ok wBig7
    ∧ 10000 < pyLenStr (turnAppended wEnv7 [] "hi" "s" wBig7)
    ∧ lookupH (chatStep wEnv7 [] "hi" "s").1 "s"
        = some (pyTrunc (turnAppended wEnv7 [] "hi" "s" wBig7))
    ∧ pyLenStr (pyTrunc (turnAppended wEnv7 [] "hi" "s" wBig7)) = 10000 := by
  have hdrop : ∀ n, (List.replicate n 'a').dropWhile isPySpace = List.replicate n 'a' := by
    intro n
    cases n with
    | zero => rfl
    | succ m => rw [List.replicate_succ]; rfl
  have hstrip : ∀ n, pyStrip (String.mk (List.replicate n 'a'))
      = String.mk (List.replicate n 'a') := by
    intro n
    show String.mk ((((List.replicate n 'a').dropWhile isPySpace).reverse.dropWhile
        isPySpace).reverse) = _
    rw [hdrop, List.reverse_replicate, hdrop, List.reverse_replicate]
  have hlen : (pyStrip wBig7).data.length = 10001 := by
    rw [wBig7, hstrip 10001]
    exact List.length_replicate 10001 'a'
  have hbig : 10000 < pyLenStr (turnAppended wEnv7 [] "hi" "s" wBig7) := by
    rw [turnAppended, pyLenStr]
    simp only [String.data_append, List.length_append, hlen]
    omega
  have h := C7_history_truncation wEnv7 [] "hi" "s" wBig7 (by decide) rfl
  exact ⟨by decide, rfl, hbig, h.1, (h.2.1 hbig).2⟩

/-- C8: the reset endpoint always returns the success body, also for a
session identifier that was never seen (first conjunct, with no hypothesis
on the stored map); after a reset, the next message of that session hands
the model exactly a newline followed by the full prompt, which mentions no
prior turn (second conjunct); and the turn behaves exactly as the same
message on a fresh process with an empty history map: same response and
same stored history for that session (third and fourth conjuncts). -/
theorem C8_reset_session (env : ChatEnv) (hm : HistMap) (sid msg : String)
    (hmsg : msg ≠ "") :
    (resetChat hm sid).2 = "Conversation reset successfully"
    ∧ geminiInput env (resetChat hm sid).1 msg sid = "\n" ++ fullPrompt env msg
    ∧ (chatStep env (resetChat hm sid).1 msg sid).2 = (chatStep env [] msg sid).2
    ∧ lookupH (chatStep env (resetChat hm sid).1 msg sid).1 sid
        = lookupH (chatStep env [] msg sid).1 sid := by
  have hreset : (lookupH (resetChat hm sid).1 sid).getD "" = "" := by
    rw [resetChat]
    cases e : lookupH hm sid with
    | none => simp [e]
    | some v => simp [e, lookupH_setH_self]
  have hL : geminiInput env (resetChat hm sid).1 msg sid = "\n" ++ fullPrompt env msg := by
    rw [geminiInput, hreset]
    rfl
  have hR : geminiInput env ([] : HistMap) msg sid = "\n" ++ fullPrompt env msg := by
    rw [geminiInput]
    rfl
  refine ⟨rfl, hL, ?_, ?_⟩
  · simp only [chatStep, if_neg hmsg, geminiInput_init, hL, hR]
    cases env.gen ("\n" ++ fullPrompt env msg) <;> rfl
  · simp only [chatStep, if_neg hmsg, geminiInput_init, hL, hR]
    cases env.gen ("\n" ++ fullPrompt env msg) with
    | error e => rw [lookupH_setH_self, lookupH_setH_self]
    | ok t => rw [lookupH_setH_self, lookupH_setH_self]

theorem C8_reset_session_witness :
    ("m" : String) ≠ ""
    ∧ ((resetChat [("u1", "old history")] "u1").2 = "Conversation reset successfully"
       ∧ geminiInput wEnv6 (resetChat [("u1", "old history")] "u1").1 "m" "u1"
           = "\n" ++ fullPrompt wEnv6 "m"
       ∧ (chatStep wEnv6 (resetChat [("u1", "old history")] "u1").1 "m" "u1").2
           = (chatStep wEnv6 [] "m" "u1").2
       ∧ lookupH (chatStep wEnv6 (resetChat [("u1", "old history")] "u1").1 "m" "u1").1 "u1"
           = lookupH (chatStep wEnv6 [] "m" "u1").1 "u1") :=
  ⟨by decide, C8_reset_session wEnv6 [("u1", "old history")] "u1" "m" (by decide)⟩

theorem summarizeCourses_map (ts : List (JVal × List JVal × List JVal)) :
    summarizeCourses (ts.map mkSummaryCourse)
      = some (ts.map (fun t => (t.1, t.2.1.length, t.2.2.length))) := by
  induction ts with
  | nil => rfl
  | cons t rest ih =>
    simp [summarizeCourses, summarizeCourse, mkSummaryCourse, dictGet, dictFind, pyJLen, ih]

theorem totalCount_map_assignments (ts : List (JVal × List JVal × List JVal)) :
    totalCount "assignments" (ts.map mkSummaryCourse)
      = some ((ts.map (fun t => t.2.1.length)).sum) := by
  induction ts with
  | nil => rfl
  | cons t rest ih =>
    simp [totalCount, mkSummaryCourse, dictGet, dictFind, pyJLen, ih]

theorem totalCount_map_quizzes (ts : List (JVal × List JVal × List JVal)) :
    totalCount "quizzes" (ts.map mkSummaryCourse)
      = some ((ts.map (fun t => t.2.2.length)).sum) := by
  induction ts with
  | nil => rfl
  | cons t rest ih =>
    simp [totalCount, mkSummaryCourse, dictGet, dictFind, pyJLen, ih]

/-- C9, counterexample: on a dataset whose single course stores the
fetcher error string in place of its assignments list, the summary reports
an assignments count of 34 (the character length of the error string) for
that course and as the total, while the number of assignments recorded for
the course is 0, so the reported counts are not the recorded counts. -/
theorem C9_counterexample :
    (get_data_summary badData).map
        (fun s => (s.perCourse.map (fun t => (t.2.1, t.2.2)), s.totalAssignments))
      = some ([(34, 0)], 34)
    ∧ specRecordedCount badCourse "assignments" = 0
    ∧ (34 : Nat) ≠ 0 := by
  decide

/-- C9, amended: on a dataset whose per-course assignments and quizzes
sections are lists (the shape the fetcher produces when retrieval succeeds),
the summary reports, for each course, counts equal to the recorded list
lengths, totals equal to the sums of the per-course counts, and the user
name and identifier from the user record. -/
theorem C9_summary_counts (ufs : List (String × JVal))
    (ts : List (JVal × List JVal × List JVal)) :
    get_data_summary (.obj [("user", .obj ufs), ("courses", .arr (ts.map mkSummaryCourse))])
      = some { userName := dictGet ufs "name" (.str "Student"),
               userId := dictGet ufs "id" (.str "Unknown"),
               perCourse := ts.map (fun t => (t.1, t.2.1.length, t.2.2.length)),
               totalAssignments := (ts.map (fun t => t.2.1.length)).sum,
               totalQuizzes := (ts.map (fun t => t.2.2.length)).sum } := by
  simp [get_data_summary, dictGet, dictFind, pyIter, summarizeCourses_map,
    totalCount_map_assignments, totalCount_map_quizzes]

/-- C10: the flattener asks the submission record for the key scores, but
the fetcher stores the score under the key score (assignments) or inside a
record with keys score and graded_at (quizzes), so for every submission
record the fetcher can produce, including one carrying a retrieved score,
the Submission Scores field renders the placeholder No submission; the same
holds when the fetcher stored an error string in place of the record. The
last two conjuncts evaluate the full flattened documents of fetcher-shaped
assignment and quiz records. -/
theorem C10_scores_key_mismatch (sa sc gr ws cm ga i nm due desc pts cn : JVal)
    (es : String) :
    subScoresOf (assignment_submission_record sa sc gr ws cm) = .str "No submission"
    ∧ subScoresOf (quiz_submission_record sc ga) = .str "No submission"
    ∧ subScoresOf (.str es) = .str "No submission"
    ∧ (flattenAssignment cn (fetcher_assignment_record i nm due desc pts
          (assignment_submission_record sa sc gr ws cm))).1
        = assignDoc (pyStr cn) (pyStr nm) (pyStr (normDue due)) (pyStr desc) "No submission"
    ∧ (flattenQuiz cn (fetcher_quiz_record i nm due desc pts
          (quiz_submission_record sc ga))).1
        = quizDoc (pyStr cn) (pyStr nm) (pyStr (normDue due)) (pyStr desc) "No submission" := by
  refine ⟨?_, ?_, ?_, ?_, ?_⟩ <;>
    simp [subScoresOf, assignment_submission_record, quiz_submission_record,
      fetcher_assignment_record, fetcher_quiz_record, flattenAssignment, flattenQuiz,
      dictGet, dictFind, pyStr]
